import Mathlib

/-!
Verification development for the page-cache layer of the scudb storage
engine: an extendible hash directory (`src/hash/extendible_hash.cpp`), an
LRU replacement set (`src/buffer/lru_replacer.cpp`) and a buffer pool
manager (`src/buffer/buffer_pool_manager.cpp`).  Each C++ class is embedded
shallowly: `std::map` buckets become sorted association lists, the
`shared_ptr<Bucket>` directory becomes an arena of buckets addressed by
index (so aliased directory slots share one bucket), and the disk manager
collaborator is modelled from the specification since its source is not
part of the repository.
-/

namespace Scudb

/-! ### `std::map<K, V>` as a sorted association list

Buckets store their entries in a `std::map`, which iterates in ascending
key order; we mirror it with a list of pairs kept sorted by key. -/

/-- Lookup in an association list, mirroring `std::map::find`. -/
def mapFind {K V : Type} [LinearOrder K] (k : K) : List (K × V) → Option V
  | [] => none
  | (k', v') :: rest => if k = k' then some v' else mapFind k rest

/-- Insert or overwrite, keeping the list sorted by key
(mirrors `std::map::insert` / `operator[]`). -/
def mapInsert {K V : Type} [LinearOrder K] (k : K) (v : V) :
    List (K × V) → List (K × V)
  | [] => [(k, v)]
  | (k', v') :: rest =>
    if k < k' then (k, v) :: (k', v') :: rest
    else if k = k' then (k, v) :: rest
    else (k', v') :: mapInsert k v rest

/-- Erase a key, mirroring `std::map::erase`. -/
def mapErase {K V : Type} [LinearOrder K] (k : K) :
    List (K × V) → List (K × V)
  | [] => []
  | (k', v') :: rest =>
    if k = k' then rest else (k', v') :: mapErase k rest

/-! ### Extendible hash (`ExtendibleHash<K, V>`)

The C++ directory is `std::vector<std::shared_ptr<Bucket>>`: several slots
may point at the same bucket object, and a mutation through one slot is
seen through all of them.  We model the heap of bucket objects as an
`arena : List (Bucket K V)` and let each directory slot hold `some i`, an
index into the arena, or `none` for a null `shared_ptr`. -/

/-- One bucket: its entries (a `std::map`), its directory id and its local
depth, as in the `Bucket` struct of `extendible_hash.h`. -/
structure Bucket (K V : Type) where
  hashItems : List (K × V)
  id : Nat
  localDepth : Nat
  deriving DecidableEq

instance {K V : Type} : Inhabited (Bucket K V) := ⟨⟨[], 0, 0⟩⟩

/-- The `ExtendibleHash<K, V>` object state. -/
structure ExtendibleHash (K V : Type) where
  bucketSize : Nat
  bucketCount : Nat
  pairCount : Nat
  globalDepth : Nat
  arena : List (Bucket K V)
  dir : List (Option Nat)
  deriving DecidableEq

namespace ExtendibleHash

variable {K V : Type} [LinearOrder K]

/-- Constructor `ExtendibleHash(size)`: global depth 0, one empty bucket
with id 0 and local depth 0, bucket count 1. -/
def new (K V : Type) (size : Nat) : ExtendibleHash K V :=
  { bucketSize := size, bucketCount := 1, pairCount := 0, globalDepth := 0,
    arena := [⟨[], 0, 0⟩], dir := [some 0] }

/-- The bucket object a directory slot points at (`buckets[idx]`
dereferenced); out-of-range reads yield the default empty bucket, a case
the C++ never exercises. -/
def bucketAt (h : ExtendibleHash K V) (i : Nat) : Option (Bucket K V) :=
  match h.dir.getD i none with
  | none => none
  | some x => some (h.arena.getD x default)

/-- `Find(key, value)`: index the directory with the low `globalDepth`
bits of the hash and look the key up in that bucket.
`hash & ((1 << G) - 1)` is written `hash % 2 ^ G`. -/
def Find (hashK : K → Nat) (k : K) (h : ExtendibleHash K V) : Option V :=
  let idx := hashK k % 2 ^ h.globalDepth
  match h.bucketAt idx with
  | none => none
  | some b => mapFind k b.hashItems

/-- `Find` as the C++ member function: it takes the object by non-const
reference, so the embedding returns the result together with the object
state after the call, branch by branch as in the source. -/
def FindSt (hashK : K → Nat) (k : K) (h : ExtendibleHash K V) :
    Option V × ExtendibleHash K V :=
  let idx := hashK k % 2 ^ h.globalDepth
  match h.dir.getD idx none with
  | none => (none, h)
  | some x =>
    match mapFind k (h.arena.getD x default).hashItems with
    | some v => (some v, h)
    | none => (none, h)

/-- `Remove(key)`: erase the key from the bucket at its directory slot,
decrement `pairCount` by the number of erased entries, return whether an
entry was erased. -/
def Remove (hashK : K → Nat) (k : K) (h : ExtendibleHash K V) :
    Bool × ExtendibleHash K V :=
  let idx := hashK k % 2 ^ h.globalDepth
  match h.dir.getD idx none with
  | none => (false, h)
  | some x =>
    let b := h.arena.getD x default
    match mapFind k b.hashItems with
    | none => (false, h)
    | some _ =>
      (true, { h with
                arena := h.arena.set x ({ b with hashItems := mapErase k b.hashItems }),
                pairCount := h.pairCount - 1 })

/-- One pass of the `while (res->hashItems.empty())` loop in `split`:
partition the overflowing bucket's entries by bit `newL - 1` of their
hash; entries with the bit set move to the sibling, whose id becomes
`hash & ((1 << newL) - 1)` of the last moved entry (the C++ reassigns
`res->id` on every moved entry in ascending key order).  When every entry
moves, the C++ swaps the two item maps and copies the sibling's id into
`b`, then iterates again; the `fuel` argument bounds that loop, `none`
standing for the non-terminating case which `Insert` guards with its
`newBucket == nullptr` branch. -/
def splitGo (hashK : K → Nat) :
    Nat → Bucket K V → Nat → Option (Bucket K V × Bucket K V)
  | 0, _, _ => none
  | fuel + 1, b, resId0 =>
    let newL := b.localDepth + 1
    let moved := b.hashItems.filter (fun kv => (hashK kv.1).testBit (newL - 1))
    let kept := b.hashItems.filter (fun kv => !(hashK kv.1).testBit (newL - 1))
    let resId := match moved.getLast? with
      | some kv => hashK kv.1 % 2 ^ newL
      | none => resId0
    if moved.isEmpty then
      splitGo hashK fuel { b with localDepth := newL } resId
    else if kept.isEmpty then
      splitGo hashK fuel { hashItems := moved, id := resId, localDepth := newL } resId
    else
      some ({ hashItems := kept, id := b.id, localDepth := newL },
            { hashItems := moved, id := resId, localDepth := newL })

/-- `split(b)`: the sibling starts as `Bucket(0, b->localDepth)`, so the
loop is entered with sibling id 0; 64 iterations bound the `size_t` hash
width. -/
def split (hashK : K → Nat) (b : Bucket K V) :
    Option (Bucket K V × Bucket K V) :=
  splitGo hashK 64 b 0

/-- Directory indices `start, start + step, ...` below `len`, the index
sequence of the C++ rebuild loops `for (i = start; i < len; i += step)`. -/
def strideIdxs (len start step : Nat) : List Nat :=
  (List.range len).filter (fun j => start ≤ j && (j - start) % step == 0)

/-- Assign one arena reference to every slot of a stride, in loop order. -/
def strideSet (d : List (Option Nat)) (start step : Nat) (x : Option Nat) :
    List (Option Nat) :=
  (strideIdxs d.length start step).foldl (fun d' j => d'.set j x) d

/-- The directory rebuild after an expansion
(`tmpBucket->localDepth > globalDepth` branch of `Insert`): for each slot
`i` of the old directory, drop it when it points at a bucket whose id
exceeds `i`, otherwise re-propagate the bucket from `i` at the stride of
its local depth. -/
def rebuildExpand (arena : List (Bucket K V)) (size : Nat)
    (d : List (Option Nat)) : List (Option Nat) :=
  (List.range size).foldl
    (fun d' i =>
      match d'.getD i none with
      | none => d'
      | some x =>
        let bx := arena.getD x default
        if i < bx.id then d'.set i none
        else strideSet d' (i + 2 ^ bx.localDepth) (2 ^ bx.localDepth) (some x))
    d

/-- `Insert(key, value)`, following `extendible_hash.cpp` line by line:
slot lookup with a fresh bucket on a null slot, overwrite of a present
key, plain insert, and on overflow (`size > bucketSize`) a split followed
by either the directory expansion or the in-place slot rebuild. -/
def Insert (hashK : K → Nat) (k : K) (v : V) (h : ExtendibleHash K V) :
    ExtendibleHash K V :=
  let bucketId := hashK k % 2 ^ h.globalDepth
  -- `if (buckets[bucket_id] == nullptr)` : create the bucket
  let (h, bidx) :=
    match h.dir.getD bucketId none with
    | some x => (h, x)
    | none =>
      ({ h with
          arena := h.arena ++ [(⟨[], bucketId, h.globalDepth⟩ : Bucket K V)],
          dir := h.dir.set bucketId (some h.arena.length),
          bucketCount := h.bucketCount + 1 }, h.arena.length)
  let tmp := h.arena.getD bidx default
  match mapFind k tmp.hashItems with
  | some _ =>
    -- key present: overwrite and return
    let tmp := { tmp with hashItems := mapInsert k v tmp.hashItems }
    { h with arena := h.arena.set bidx tmp }
  | none =>
    let tmp := { tmp with hashItems := mapInsert k v tmp.hashItems }
    let h := { h with arena := h.arena.set bidx tmp,
                      pairCount := h.pairCount + 1 }
    if tmp.hashItems.length > h.bucketSize then
      let oldIndex := tmp.id
      let oldDepth := tmp.localDepth
      match split hashK tmp with
      | none =>
        -- `newBucket == nullptr`: restore the local depth and return
        { h with arena := h.arena.set bidx ({ tmp with localDepth := oldDepth }) }
      | some (b', res') =>
        -- `bucketCount++` happens inside `split` on success
        let resIdx := h.arena.length
        let h := { h with arena := (h.arena.set bidx b') ++ [res'],
                          bucketCount := h.bucketCount + 1 }
        if b'.localDepth > h.globalDepth then
          let size := h.dir.length
          let factor := 2 ^ (b'.localDepth - h.globalDepth)
          let d := h.dir ++ List.replicate (size * factor - size) none
          let d := d.set b'.id (some bidx)
          let d := d.set res'.id (some resIdx)
          { h with globalDepth := b'.localDepth,
                   dir := rebuildExpand h.arena size d }
        else
          let d := (strideIdxs h.dir.length oldIndex (2 ^ oldDepth)).foldl
            (fun (d' : List (Option Nat)) i => d'.set i none) h.dir
          let d := d.set b'.id (some bidx)
          let d := d.set res'.id (some resIdx)
          let step := 2 ^ b'.localDepth
          let d := strideSet d (b'.id + step) step (some bidx)
          let d := strideSet d (res'.id + step) step (some resIdx)
          { h with dir := d }
    else h

/-- `GetGlobalDepth()`. -/
def GetGlobalDepth (h : ExtendibleHash K V) : Nat := h.globalDepth

/-- `GetNumBuckets()`. -/
def GetNumBuckets (h : ExtendibleHash K V) : Nat := h.bucketCount

end ExtendibleHash

/-- `std::hash<int>` on a non-negative page id is the identity; a negative
id is converted to `size_t` by wrapping modulo `2 ^ 64`. -/
def hashInt (x : Int) : Nat := (x % (2 ^ 64 : Int)).toNat

/-- `std::hash<int>` restricted to naturals: the identity. -/
def hashNat (x : Nat) : Nat := x

/-! ### LRU replacement set (`LRUReplacer<T>`), list level

The C++ object is a doubly-linked list from a sentinel `head` to `tail`
plus a side map from value to node and a `size` counter.  For the buffer
pool embedding the node chain from `head->next` to `tail` is carried as a
plain list (head first = least recently inserted); the side map is its
membership relation and `size` its length.  `Victim`, `Erase` and the
not-present branch of `Insert` are exact at this level; the present
branch of the source's `Insert` manipulates raw node pointers and is
*not summarisable as a list operation* — it crashes or corrupts the
chain when the value is the current tail (see `LRUReplacerImpl` below
for the exact pointer-level embedding).  The buffer pool only ever calls
`Insert` on a frame that has just reached pin count zero, which under
the spec §3 invariant is not in the replacer, so only the faithful
branch is exercised there; the `UnpinPage` theorem carries that as an
explicit hypothesis. -/

structure LRUReplacer (T : Type) where
  lruList : List T
  deriving DecidableEq

namespace LRUReplacer

variable {T : Type} [DecidableEq T]

/-- Constructor: empty list (`head = tail`, `size = 0`). -/
def new (T : Type) : LRUReplacer T := ⟨[]⟩

/-- `Insert(value)`: the not-present branch appends a new node at the
tail, exactly as the source does.  The present branch here performs the
unlink-and-re-link the source attempts; the source's relink is defective
(null dereference or chain corruption, captured by
`LRUReplacerImpl.Insert`), so no theorem below relies on this branch:
statements about `UnpinPage` assume the inserted frame absent. -/
def Insert (v : T) (r : LRUReplacer T) : LRUReplacer T :=
  if v ∈ r.lruList then ⟨r.lruList.erase v ++ [v]⟩
  else ⟨r.lruList ++ [v]⟩

/-- `Victim(value)`: if empty return `false`; else pop `head->next`,
erase it from the map and return it.  The C++ out-parameter and boolean
become an `Option`. -/
def Victim (r : LRUReplacer T) : Option T × LRUReplacer T :=
  match r.lruList with
  | [] => (none, r)
  | x :: rest => (some x, ⟨rest⟩)

/-- `Erase(value)`: unlink and erase if present. -/
def Erase (v : T) (r : LRUReplacer T) : Bool × LRUReplacer T :=
  if v ∈ r.lruList then (true, ⟨r.lruList.erase v⟩) else (false, r)

/-- `Size()`. -/
def Size (r : LRUReplacer T) : Nat := r.lruList.length

end LRUReplacer

/-! ### LRU replacement set, pointer level (`lru_replacer.cpp`)

The exact embedding of the source's doubly-linked list: nodes live in an
arena (`nodes`), a pointer is `some i` (arena index) or `none`
(`nullptr`), and every pointer read and write of the C++ is performed in
program order.  A dereference of a null pointer returns `none` from the
whole operation — the C++ crashes there.  `delete` (only in `Erase` of
the tail) frees the node; the arena keeps its bytes, which matches the
C++ whenever, as in every theorem below, no freed node is read again.
The `node` struct is declared in the missing `lru_replacer.h`; its
fields are fixed by the .cpp's usage: `data`, `pre`, `next`, with `next`
null-initialised (the constructor chains `node(value, tail)` at the tail
and `Victim` line 61 null-tests `next`). -/

structure LRUNode (T : Type) where
  data : T
  pre : Option Nat
  next : Option Nat
  deriving DecidableEq

instance {T : Type} [Inhabited T] : Inhabited (LRUNode T) :=
  ⟨⟨default, none, none⟩⟩

/-- The `LRUReplacer<T>` object: head sentinel index, tail index, the
value-to-node map and the element count. -/
structure LRUReplacerImpl (T : Type) where
  nodes : List (LRUNode T)
  head : Nat
  tail : Nat
  map : List (T × Nat)
  size : Nat
  deriving DecidableEq

namespace LRUReplacerImpl

variable {T : Type} [LinearOrder T] [Inhabited T]

/-- Constructor: `head = new node(); tail = head`. -/
def new (T : Type) [Inhabited T] : LRUReplacerImpl T :=
  { nodes := [⟨default, none, none⟩], head := 0, tail := 0,
    map := [], size := 0 }

/-- Read a node through an arena index. -/
def node (r : LRUReplacerImpl T) (i : Nat) : LRUNode T :=
  r.nodes.getD i default

/-- `Insert(value)`, pointer for pointer.  In the present branch the
source reads `pre = it->second->pre`, re-derives `cur = pre->next`,
copies `cur->next` into `pre->next` (`std::move` on a raw pointer copies
and does not clear `cur->next`), then dereferences `pre->next` — a null
dereference (`none`) when `cur` was the cleanly appended tail — and
re-links `cur` behind `tail`. -/
def Insert (v : T) (r : LRUReplacerImpl T) : Option (LRUReplacerImpl T) :=
  match mapFind v r.map with
  | some curIdx =>
    -- node *pre = it->second->pre
    match (r.node curIdx).pre with
    | none => none
    | some p =>
      -- node *cur = pre->next
      match (r.node p).next with
      | none => none
      | some c =>
        -- pre->next = std::move(cur->next)
        let n1 := (r.node c).next
        let nodes1 := r.nodes.set p ({ r.node p with next := n1 })
        -- pre->next->pre = pre
        match n1 with
        | none => none
        | some q =>
          let nodes2 := nodes1.set q
            ({ nodes1.getD q default with pre := some p })
          -- cur->pre = tail
          let nodes3 := nodes2.set c
            ({ nodes2.getD c default with pre := some r.tail })
          -- tail->next = std::move(cur); tail = tail->next
          let nodes4 := nodes3.set r.tail
            ({ nodes3.getD r.tail default with next := some c })
          some { r with nodes := nodes4, tail := c }
  | none =>
    -- tail->next = new node(value, tail); tail = tail->next;
    -- map.emplace(value, tail); size++
    let idx := r.nodes.length
    let nodes1 := r.nodes ++ [(⟨v, some r.tail, none⟩ : LRUNode T)]
    let nodes2 := nodes1.set r.tail
      ({ nodes1.getD r.tail default with next := some idx })
    some { r with nodes := nodes2, tail := idx,
                  map := mapInsert v idx r.map, size := r.size + 1 }

/-- `Victim(value)`: `false` when `size == 0`; otherwise pop
`head->next`, fix the back pointer of the new first node when it exists,
erase the value from the map, and reset `tail` to `head` when the set
became empty. -/
def Victim (r : LRUReplacerImpl T) :
    Option (Option T × LRUReplacerImpl T) :=
  if r.size = 0 then some (none, r)
  else
    match (r.node r.head).next with
    | none => none
    | some hn =>
      let v := (r.node hn).data
      let n2 := (r.node hn).next
      let nodes1 := r.nodes.set r.head ({ r.node r.head with next := n2 })
      let nodes2 :=
        match n2 with
        | some i => nodes1.set i ({ nodes1.getD i default with pre := some r.head })
        | none => nodes1
      let sz := r.size - 1
      some (some v,
        { r with nodes := nodes2, map := mapErase v r.map, size := sz,
                 tail := if sz = 0 then r.head else r.tail })

/-- `Erase(value)`: `false` when absent; a non-tail node is unlinked via
its neighbours (same pointer pattern as the relink), the tail is removed
by stepping `tail` back and deleting the old tail. -/
def Erase (v : T) (r : LRUReplacerImpl T) :
    Option (Bool × LRUReplacerImpl T) :=
  match mapFind v r.map with
  | none => some (false, r)
  | some curIdx =>
    if curIdx ≠ r.tail then
      match (r.node curIdx).pre with
      | none => none
      | some p =>
        match (r.node p).next with
        | none => none
        | some c =>
          let n1 := (r.node c).next
          let nodes1 := r.nodes.set p ({ r.node p with next := n1 })
          match n1 with
          | none => none
          | some q =>
            let nodes2 := nodes1.set q
              ({ nodes1.getD q default with pre := some p })
            let sz := r.size - 1
            some (true,
              { r with nodes := nodes2, map := mapErase v r.map, size := sz,
                       tail := if sz = 0 then r.head else r.tail })
    else
      -- tail = tail->pre; delete tail->next
      match (r.node r.tail).pre with
      | none => none
      | some p =>
        let sz := r.size - 1
        some (true,
          { r with map := mapErase v r.map, size := sz,
                   tail := if sz = 0 then r.head else p })

/-- `Size()` returns `map.size()`. -/
def Size (r : LRUReplacerImpl T) : Nat := r.map.length

end LRUReplacerImpl

/-- Insert each value in turn on the pointer machine, `none` once any
call crashes. -/
def lruImplInserts (vs : List Nat) : Option (LRUReplacerImpl Nat) :=
  vs.foldl (fun r v => r.bind (LRUReplacerImpl.Insert v))
    (some (LRUReplacerImpl.new Nat))

/-- Pop `n` victims in sequence on the pointer machine, collecting the
returned values; `none` once any call crashes. -/
def lruImplVictims : Nat → LRUReplacerImpl Nat → Option (List (Option Nat))
  | 0, _ => some []
  | n + 1, r =>
    (LRUReplacerImpl.Victim r).bind fun p =>
      (lruImplVictims n p.2).map fun vs => p.1 :: vs

/-! ### Page frames and the disk manager -/

/-- Modelled from the spec: the page frame of §4.C (`page.h` is not in
the repository): a PAGE_SIZE byte buffer abstracted to one `Nat` content
value with `0` as the zeroed buffer (`ResetMemory`), the current page id
(`INVALID_PAGE_ID = -1` when unoccupied), the pin count and the dirty
flag. -/
structure Page where
  data : Nat
  page_id : Int
  pin_count : Int
  is_dirty : Bool
  deriving DecidableEq

instance : Inhabited Page := ⟨⟨0, -1, 0, false⟩⟩

/-- The reserved sentinel page id. -/
def INVALID_PAGE_ID : Int := -1

/-- One call on the disk-manager collaborator, recorded as an event. -/
inductive DiskOp where
  | write (pid : Int) (data : Nat)
  | read (pid : Int)
  | alloc (pid : Int)
  | dealloc (pid : Int)
  deriving DecidableEq

/-- Modelled from the spec: the disk manager of §6 (its source is not in
the repository): `AllocatePage` hands out successive ids, `WritePage`
stores a page's bytes, `ReadPage` returns them (0, the zero page, for a
never-written id), `DeallocatePage` releases the id (reads after it are
unspecified, so the stored bytes are simply kept). -/
structure DiskManager where
  nextPageId : Int
  disk : List (Int × Nat)
  deriving DecidableEq

namespace DiskManager

/-- `WritePage(page_id, data)`. -/
def WritePage (dm : DiskManager) (pid : Int) (d : Nat) :
    DiskManager × DiskOp :=
  ({ dm with disk := mapInsert pid d dm.disk }, .write pid d)

/-- `ReadPage(page_id, data)`. -/
def ReadPage (dm : DiskManager) (pid : Int) : Nat × DiskOp :=
  ((mapFind pid dm.disk).getD 0, .read pid)

/-- `AllocatePage()`. -/
def AllocatePage (dm : DiskManager) : Int × DiskManager × DiskOp :=
  (dm.nextPageId, { dm with nextPageId := dm.nextPageId + 1 },
   .alloc dm.nextPageId)

/-- `DeallocatePage(page_id)`. -/
def DeallocatePage (dm : DiskManager) (pid : Int) : DiskManager × DiskOp :=
  (dm, .dealloc pid)

end DiskManager

/-! ### Buffer pool manager (`BufferPoolManager`)

`pages` is the frame array (`new Page[poolSize]`); frames are referred to
by their array index, which stands for the C++ `Page *`.  The page table
is the real `ExtendibleHash<page_id_t, Page *>` embedded above, mapping a
page id to a frame index, and the replacer is the real
`LRUReplacer<Page *>`.  Every public call is serialised by one mutex in
the C++, so each is one atomic state transformer here; the disk calls a
transformer makes are returned as an event list in call order. -/

structure BufferPoolManager where
  poolSize : Nat
  pages : List Page
  freeList : List Nat
  replacer : LRUReplacer Nat
  pageTable : ExtendibleHash Int Nat
  dm : DiskManager
  deriving DecidableEq

namespace BufferPoolManager

/-- Constructor: every frame on the free list, empty replacer, empty page
table (`BUCKET_SIZE` is declared in the missing header; the page-table
claims hold for any bucket size, which is taken as a parameter here). -/
def new (poolSize bucketSize : Nat) (dm : DiskManager) :
    BufferPoolManager :=
  { poolSize := poolSize,
    pages := List.replicate poolSize default,
    freeList := List.range poolSize,
    replacer := LRUReplacer.new Nat,
    pageTable := ExtendibleHash.new Int Nat bucketSize,
    dm := dm }

/-- The replacement-candidate selection shared verbatim by `FetchPage`
step 1.2 and `NewPage` step 1: pop the free list front if the free list
is non-empty, otherwise ask the replacer for a victim; `none` when both
fail (every frame pinned). -/
def pickVictim (b : BufferPoolManager) :
    Option (Nat × BufferPoolManager) :=
  match b.freeList with
  | f :: rest => some (f, { b with freeList := rest })
  | [] =>
    match LRUReplacer.Victim b.replacer with
    | (some f, r') => some (f, { b with replacer := r' })
    | (none, _) => none

/-- Steps 2-4 of `FetchPage` on a page-table miss: write the victim back
if dirty, swap the page-table entry, read the new page from disk and
reset the frame metadata. -/
def fetchMiss (pid : Int) (b : BufferPoolManager) (f : Nat) :
    Option Nat × BufferPoolManager × List DiskOp :=
  let tar := b.pages.getD f default
  let (dm, evW) :=
    if tar.is_dirty then
      let (dm', e) := b.dm.WritePage tar.page_id tar.data
      (dm', [e])
    else (b.dm, [])
  let pt := (ExtendibleHash.Remove hashInt tar.page_id b.pageTable).2
  let pt := ExtendibleHash.Insert hashInt pid f pt
  let (d, evR) := dm.ReadPage pid
  (some f,
   { b with
      pages := b.pages.set f ⟨d, pid, 1, false⟩,
      pageTable := pt,
      dm := dm },
   evW ++ [evR])

/-- `FetchPage(page_id)`: on a hit, pin the frame and remove it from the
replacer; on a miss, pick a replacement candidate (free list first) and
run `fetchMiss`; `none` when every frame is pinned. -/
def FetchPage (pid : Int) (b : BufferPoolManager) :
    Option Nat × BufferPoolManager × List DiskOp :=
  match ExtendibleHash.Find hashInt pid b.pageTable with
  | some f =>
    let tar := b.pages.getD f default
    (some f,
     { b with
        pages := b.pages.set f { tar with pin_count := tar.pin_count + 1 },
        replacer := (LRUReplacer.Erase f b.replacer).2 },
     [])
  | none =>
    match pickVictim b with
    | none => (none, b, [])
    | some (f, b') => fetchMiss pid b' f

/-- `UnpinPage(page_id, is_dirty)`: `false` on an unknown id; otherwise
the dirty flag is assigned, then a non-positive pin count returns
`false`; otherwise the pin count is decremented and the frame joins the
replacer when it reaches zero. -/
def UnpinPage (pid : Int) (isDirty : Bool) (b : BufferPoolManager) :
    Bool × BufferPoolManager :=
  match ExtendibleHash.Find hashInt pid b.pageTable with
  | none => (false, b)
  | some f =>
    let tar := b.pages.getD f default
    let tar := { tar with is_dirty := isDirty }
    if tar.pin_count ≤ 0 then
      (false, { b with pages := b.pages.set f tar })
    else
      let tar := { tar with pin_count := tar.pin_count - 1 }
      if tar.pin_count = 0 then
        (true, { b with pages := b.pages.set f tar,
                        replacer := LRUReplacer.Insert f b.replacer })
      else
        (true, { b with pages := b.pages.set f tar })

/-- `FlushPage(page_id)`: `false` for the sentinel id or an unknown id;
otherwise write the frame's buffer under the id and return `true`.  The
dirty flag is not touched. -/
def FlushPage (pid : Int) (b : BufferPoolManager) :
    Bool × BufferPoolManager × List DiskOp :=
  if pid = INVALID_PAGE_ID then (false, b, [])
  else
    match ExtendibleHash.Find hashInt pid b.pageTable with
    | some f =>
      let (dm', e) := b.dm.WritePage pid (b.pages.getD f default).data
      (true, { b with dm := dm' }, [e])
    | none => (false, b, [])

/-- `DeletePage(page_id)`: a resident pinned page returns `false` at
once; a resident unpinned page is dropped from the page table, its dirty
flag cleared, its buffer zeroed and the frame pushed onto the free list;
in every non-pinned case the disk manager deallocates the id and the call
returns `true`. -/
def DeletePage (pid : Int) (b : BufferPoolManager) :
    Bool × BufferPoolManager × List DiskOp :=
  match ExtendibleHash.Find hashInt pid b.pageTable with
  | some f =>
    let tar := b.pages.getD f default
    if tar.pin_count > 0 then (false, b, [])
    else
      let pt := (ExtendibleHash.Remove hashInt pid b.pageTable).2
      let tar := { tar with is_dirty := false, data := 0 }
      let (dm', e) := DiskManager.DeallocatePage b.dm pid
      (true,
       { b with
          pages := b.pages.set f tar,
          pageTable := pt,
          freeList := b.freeList ++ [f],
          dm := dm' },
       [e])
  | none =>
    let (dm', e) := DiskManager.DeallocatePage b.dm pid
    (true, { b with dm := dm' }, [e])

/-- `NewPage(page_id)`: pick a replacement candidate, allocate a fresh id
from the disk manager, write the victim back if dirty, swap the
page-table entry, and hand out the zeroed pinned frame.  The returned
pair is the out-parameter id and the frame. -/
def NewPage (b : BufferPoolManager) :
    Option (Int × Nat) × BufferPoolManager × List DiskOp :=
  match pickVictim b with
  | none => (none, b, [])
  | some (f, b') =>
    let (pid, dm, evA) := DiskManager.AllocatePage b'.dm
    let tar := b'.pages.getD f default
    let (dm, evW) :=
      if tar.is_dirty then
        let (dm', e) := dm.WritePage tar.page_id tar.data
        (dm', [e])
      else (dm, [])
    let pt := (ExtendibleHash.Remove hashInt tar.page_id b'.pageTable).2
    let pt := ExtendibleHash.Insert hashInt pid f pt
    (some (pid, f),
     { b' with
        pages := b'.pages.set f ⟨0, pid, 1, false⟩,
        pageTable := pt,
        dm := dm },
     evA :: evW)

end BufferPoolManager

/-! ### Auxiliary state builders and spec-side predicates -/

/-- Insert the keys of `ks` in order into a fresh table of bucket size
`bs`, each key `k` carrying the value `k + 100`. -/
def insertSeq (bs : Nat) (ks : List Nat) : ExtendibleHash Nat Nat :=
  ks.foldl (fun h k => ExtendibleHash.Insert hashNat k (k + 100) h)
    (ExtendibleHash.new Nat Nat bs)

/-- A key counts as stored when some directory slot reaches a bucket
holding it. -/
def storesKey (h : ExtendibleHash Nat Nat) (k : Nat) : Bool :=
  h.dir.any (fun s =>
    match s with
    | none => false
    | some x => (mapFind k (h.arena.getD x default).hashItems).isSome)

/-- The directory-coherence property of spec §3 for one key, written from
the spec's words: the slot at `hash(k) mod 2^G` references a bucket whose
local depth `L` satisfies `bucket.id = hash(k) mod 2^L`, and every entry
of that bucket has those low `L` bits. -/
def dirInvariantFor (h : ExtendibleHash Nat Nat) (k : Nat) : Bool :=
  match h.bucketAt (hashNat k % 2 ^ h.globalDepth) with
  | none => false
  | some bb =>
    (bb.id == hashNat k % 2 ^ bb.localDepth) &&
    bb.hashItems.all (fun kv =>
      hashNat kv.1 % 2 ^ bb.localDepth == hashNat k % 2 ^ bb.localDepth)

/-- A hash state is well formed when no bucket holds two entries with the
same key — `std::map` guarantees this by construction, so every state the
C++ object can be in satisfies it. -/
def ExtendibleHash.WF {K V : Type} (h : ExtendibleHash K V) : Prop :=
  ∀ bb ∈ h.arena, (bb.hashItems.map Prod.fst).Nodup

instance {K V : Type} [DecidableEq K] (h : ExtendibleHash K V) :
    Decidable h.WF := by
  unfold ExtendibleHash.WF; infer_instance

/-- A one-frame pool whose only frame holds dirty page 0 with pin count
0, resident in the page table and eligible for eviction. -/
def bpmDirtyVictim : BufferPoolManager :=
  { poolSize := 1,
    pages := [⟨7, 0, 0, true⟩],
    freeList := [],
    replacer := ⟨[0]⟩,
    pageTable := ExtendibleHash.Insert hashInt 0 0 (ExtendibleHash.new Int Nat 2),
    dm := ⟨5, []⟩ }

/-- A one-frame pool whose only frame holds dirty page 0 pinned once. -/
def bpmPinnedDirty : BufferPoolManager :=
  { poolSize := 1,
    pages := [⟨7, 0, 1, true⟩],
    freeList := [],
    replacer := ⟨[]⟩,
    pageTable := ExtendibleHash.Insert hashInt 0 0 (ExtendibleHash.new Int Nat 2),
    dm := ⟨1, []⟩ }

/-- A one-frame pool whose only frame holds dirty page 0, unpinned and
sitting in the replacer. -/
def bpmUnpinnedResident : BufferPoolManager :=
  { poolSize := 1,
    pages := [⟨9, 0, 0, true⟩],
    freeList := [],
    replacer := ⟨[0]⟩,
    pageTable := ExtendibleHash.Insert hashInt 0 0 (ExtendibleHash.new Int Nat 2),
    dm := ⟨1, []⟩ }

/-! ### Claims about the extendible hash -/

/-- C2: the claim demands that after any Insert/Remove sequence every key
whose most recent operation is an insertion is found by `Find`.  The code
violates it: with bucket size 1, inserting the keys 0, 5, 2, 9 leaves 9
findable, but the subsequent insertion of the unrelated key 27 (no
removal anywhere) reorganises the directory so that `Find(9)` reports
not-found — the multi-level split sets the sibling id from the last moved
entry only and the expansion rebuild leaves slot 9 empty. -/
theorem find_loses_inserted_key :
    ExtendibleHash.Find hashNat 9 (insertSeq 1 [0, 5, 2, 9]) = some 109 ∧
    ExtendibleHash.Find hashNat 9 (insertSeq 1 [0, 5, 2, 9, 27]) = none := by
  decide

/-- C9: the claim demands the spec §3 directory-coherence invariant for
every stored key after any operation sequence.  The code violates it:
with bucket size 1, after inserting 0, 5, 2, 9, 3 the key 3 is stored
(and even findable), yet the bucket referenced by its slot has id 1 and
local depth 4 while `3 mod 2^4 = 3`, because the expansion rebuild keeps
stale directory aliases of the split bucket. -/
theorem directory_invariant_broken :
    storesKey (insertSeq 1 [0, 5, 2, 9, 3]) 3 = true ∧
    dirInvariantFor (insertSeq 1 [0, 5, 2, 9, 3]) 3 = false := by
  decide

/-- C4 fails as stated: with bucket size 2 a bucket splits only when its
size exceeds the bucket size, so after inserting the four keys with hash
values 0, 1, 2, 3 only one split has happened: the global depth is 1 and
the bucket count 2, not at least 2 and 3 as claimed. -/
theorem s5_scenario_counterexample :
    ¬ (2 ≤ (insertSeq 2 [0, 1, 2, 3]).GetGlobalDepth ∧
       3 ≤ (insertSeq 2 [0, 1, 2, 3]).GetNumBuckets ∧
       ∀ k ∈ [0, 1, 2, 3],
         (ExtendibleHash.Find hashNat k (insertSeq 2 [0, 1, 2, 3])).isSome) := by
  decide

/-- C4 as amended: after the fourth insertion the global depth is at
least 1, the bucket count at least 2, and `Find` succeeds for each of the
four keys. -/
theorem s5_scenario :
    1 ≤ (insertSeq 2 [0, 1, 2, 3]).GetGlobalDepth ∧
    2 ≤ (insertSeq 2 [0, 1, 2, 3]).GetNumBuckets ∧
    ∀ k ∈ [0, 1, 2, 3],
      (ExtendibleHash.Find hashNat k (insertSeq 2 [0, 1, 2, 3])).isSome := by
  decide

/-- C10: `Find` leaves the table untouched — on any state and key, the
member call returns its lookup result together with exactly the state it
was given (so global depth, bucket count, pair count, directory and every
bucket are unchanged), found or not. -/
theorem find_pure {K V : Type} [LinearOrder K] (hashK : K → Nat) (k : K)
    (h : ExtendibleHash K V) :
    ExtendibleHash.FindSt hashK k h = (ExtendibleHash.Find hashK k h, h) := by
  simp only [ExtendibleHash.FindSt, ExtendibleHash.Find, ExtendibleHash.bucketAt]
  cases hd : (h.dir[hashK k % 2 ^ h.globalDepth]?).getD none with
  | none => simp [hd]
  | some x =>
    cases hm : mapFind k ((h.arena[x]?).getD default).hashItems <;> simp [hd, hm]

/-! ### Association-list lemmas -/

/-- A key outside the key list is not found. -/
theorem mapFind_eq_none_of_not_mem {K V : Type} [LinearOrder K] (k : K)
    (l : List (K × V)) (h : k ∉ l.map Prod.fst) : mapFind k l = none := by
  induction l with
  | nil => rfl
  | cons kv rest ih =>
    obtain ⟨k', v'⟩ := kv
    simp only [List.map_cons, List.mem_cons] at h
    push_neg at h
    simpa [mapFind, h.1] using ih h.2

/-- Erasing a key from a duplicate-free association list makes it
unfindable. -/
theorem mapFind_mapErase {K V : Type} [LinearOrder K] (k : K)
    (l : List (K × V)) (h : (l.map Prod.fst).Nodup) :
    mapFind k (mapErase k l) = none := by
  induction l with
  | nil => rfl
  | cons kv rest ih =>
    obtain ⟨k', v'⟩ := kv
    simp only [List.map_cons, List.nodup_cons] at h
    by_cases hk : k = k'
    · subst hk
      simpa [mapErase] using mapFind_eq_none_of_not_mem k rest h.1
    · simpa [mapErase, hk, mapFind] using ih h.2

/-- Re-inserting the same pair is a no-op. -/
theorem mapInsert_idem {K V : Type} [LinearOrder K] (k : K) (v : V)
    (l : List (K × V)) : mapInsert k v (mapInsert k v l) = mapInsert k v l := by
  induction l with
  | nil => simp [mapInsert]
  | cons kv rest ih =>
    obtain ⟨k', v'⟩ := kv
    by_cases h1 : k < k'
    · simp [mapInsert, h1, lt_irrefl]
    · by_cases h2 : k = k'
      · simp [mapInsert, h1, h2, lt_irrefl]
      · simp [mapInsert, h1, h2, ih]

/-- After `Remove(k)` the key `k` is no longer found, on any well-formed
table state; both calls inspect the same directory slot, so the erasure
is visible to the lookup. -/
theorem find_remove_self {K V : Type} [LinearOrder K] (hashK : K → Nat)
    (k : K) (h : ExtendibleHash K V) (hwf : h.WF) :
    ExtendibleHash.Find hashK k (ExtendibleHash.Remove hashK k h).2 = none := by
  simp only [ExtendibleHash.Remove, ExtendibleHash.Find, ExtendibleHash.bucketAt]
  cases hd : (h.dir[hashK k % 2 ^ h.globalDepth]?).getD none with
  | none => simp [hd]
  | some x =>
    cases hm : mapFind k ((h.arena[x]?).getD default).hashItems with
    | none => simp [hd, hm]
    | some v =>
      by_cases hx : x < h.arena.length
      · have harena : ((h.arena.set x
            { h.arena[x]?.getD default with
              hashItems := mapErase k (h.arena[x]?.getD default).hashItems })[x]?).getD
              default =
            { h.arena[x]?.getD default with
              hashItems := mapErase k (h.arena[x]?.getD default).hashItems } := by
          rw [List.getElem?_set_self (by simpa using hx)]
          simp
        have hnodup : ((h.arena[x]?.getD default).hashItems.map Prod.fst).Nodup := by
          apply hwf
          have : h.arena[x]?.getD default = h.arena[x] := by
            rw [List.getElem?_eq_getElem hx]; rfl
          rw [this]
          exact List.getElem_mem hx
        simp [hd, hm, harena, mapFind_mapErase k _ hnodup]
      · exfalso
        have : h.arena[x]? = none := List.getElem?_eq_none (by omega)
        rw [this] at hm
        simp [mapFind] at hm

/-! ### Buffer pool helper lemmas -/

/-- The victim-selection snippet touches only the free list or the
replacer. -/
theorem pickVictim_fields (b : BufferPoolManager) (f : Nat)
    (b' : BufferPoolManager)
    (hv : BufferPoolManager.pickVictim b = some (f, b')) :
    b'.pages = b.pages ∧ b'.dm = b.dm ∧ b'.pageTable = b.pageTable := by
  unfold BufferPoolManager.pickVictim at hv
  cases hfl : b.freeList with
  | cons g rest =>
    rw [hfl] at hv
    simp only [Option.some.injEq, Prod.mk.injEq] at hv
    rw [← hv.2]
    exact ⟨rfl, rfl, rfl⟩
  | nil =>
    rw [hfl] at hv
    rcases hvic : LRUReplacer.Victim b.replacer with ⟨o, r'⟩
    rw [hvic] at hv
    cases o with
    | none => simp at hv
    | some g =>
      simp only [Option.some.injEq, Prod.mk.injEq] at hv
      rw [← hv.2]
      exact ⟨rfl, rfl, rfl⟩

/-! ### Claims about the buffer pool manager -/

/-- C1: when `FetchPage` misses and selects a dirty victim frame, its
disk trace is exactly the write-back of the victim's old page id and old
buffer followed by the read of the requested page; when `NewPage` selects
a dirty victim, its trace is the id allocation followed by the same
write-back.  In both, the write of the old `(id, buffer)` precedes the
frame's reassignment, so a dirty frame is never reused without it. -/
theorem dirty_victim_written_before_reuse
    (b : BufferPoolManager) (pid : Int) (f : Nat) (b' : BufferPoolManager)
    (hmiss : ExtendibleHash.Find hashInt pid b.pageTable = none)
    (hvict : BufferPoolManager.pickVictim b = some (f, b'))
    (hdirty : (b.pages.getD f default).is_dirty = true) :
    (BufferPoolManager.FetchPage pid b).2.2 =
      [DiskOp.write (b.pages.getD f default).page_id
        (b.pages.getD f default).data,
       DiskOp.read pid] ∧
    (BufferPoolManager.NewPage b).2.2 =
      [DiskOp.alloc b.dm.nextPageId,
       DiskOp.write (b.pages.getD f default).page_id
        (b.pages.getD f default).data] := by
  obtain ⟨hp, hdm, _⟩ := pickVictim_fields b f b' hvict
  simp only [List.getD_eq_getElem?_getD] at hdirty
  constructor
  · unfold BufferPoolManager.FetchPage
    simp only [hmiss, hvict]
    unfold BufferPoolManager.fetchMiss
    simp [hp, hdm, hdirty, DiskManager.WritePage, DiskManager.ReadPage]
  · unfold BufferPoolManager.NewPage
    simp only [hvict]
    simp [hp, hdm, hdirty, DiskManager.AllocatePage, DiskManager.WritePage]

/-- Witness for C1: in a one-frame pool whose frame holds dirty page 0
with content 7, fetching absent page 5 writes `(0, 7)` back before
reading 5, and `NewPage` writes `(0, 7)` back after allocating id 5. -/
theorem dirty_victim_written_before_reuse_witness :
    (BufferPoolManager.FetchPage 5 bpmDirtyVictim).2.2 =
      [DiskOp.write 0 7, DiskOp.read 5] ∧
    (BufferPoolManager.NewPage bpmDirtyVictim).2.2 =
      [DiskOp.alloc 5, DiskOp.write 0 7] := by
  have h := dirty_victim_written_before_reuse bpmDirtyVictim 5 0
    { bpmDirtyVictim with replacer := ⟨[]⟩ }
    (by decide) (by decide) (by decide)
  constructor
  · rw [h.1]; decide
  · rw [h.2]; decide

/-- C3 fails as stated: `UnpinPage` assigns the dirty flag instead of
OR-ing it, so unpinning an already-dirty resident page with
`is_dirty = false` clears the flag, where the claim requires it to stay
set. -/
theorem unpin_sticky_dirty_counterexample :
    ExtendibleHash.Find hashInt 0 bpmPinnedDirty.pageTable = some 0 ∧
    (bpmPinnedDirty.pages.getD 0 default).is_dirty = true ∧
    ¬ (((BufferPoolManager.UnpinPage 0 false bpmPinnedDirty).2.pages.getD 0
          default).is_dirty =
        ((bpmPinnedDirty.pages.getD 0 default).is_dirty || false)) := by
  decide

/-- C3 as amended: for a resident page whose frame is not already in the
replacer (the spec §3 invariant keeps every pinned frame out of the LRU
set, and the source's relink for an already-present value is defective —
see `LRUReplacerImpl.Insert`), `UnpinPage(id, d)` assigns the frame's
dirty flag to `d` (overwriting a previously set flag), and when the pin
count is at least 1 it decrements it, returns true, and appends the
frame to the replacer exactly when the count reaches zero. -/
theorem unpin_page_spec (b : BufferPoolManager) (pid : Int) (d : Bool)
    (f : Nat)
    (hfind : ExtendibleHash.Find hashInt pid b.pageTable = some f)
    (hlt : f < b.pages.length)
    (hnotin : f ∉ b.replacer.lruList) :
    (((BufferPoolManager.UnpinPage pid d b).2.pages.getD f default).is_dirty
      = d) ∧
    (1 ≤ (b.pages.getD f default).pin_count →
      (BufferPoolManager.UnpinPage pid d b).1 = true ∧
      ((BufferPoolManager.UnpinPage pid d b).2.pages.getD f
          default).pin_count = (b.pages.getD f default).pin_count - 1 ∧
      ((b.pages.getD f default).pin_count = 1 →
        (BufferPoolManager.UnpinPage pid d b).2.replacer.lruList =
          b.replacer.lruList ++ [f]) ∧
      ((b.pages.getD f default).pin_count ≠ 1 →
        (BufferPoolManager.UnpinPage pid d b).2.replacer = b.replacer)) := by
  have hset : ∀ p : Page, (b.pages.set f p).getD f default = p := by
    intro p
    rw [List.getD_eq_getElem _ _ (by simpa using hlt)]
    simp
  unfold BufferPoolManager.UnpinPage
  simp only [hfind]
  simp only [List.getD_eq_getElem?_getD] at hset ⊢
  by_cases h0 : (b.pages[f]?.getD default).pin_count ≤ 0
  · constructor
    · simp [h0, hset]
    · intro h1
      omega
  · by_cases h1 : (b.pages[f]?.getD default).pin_count - 1 = 0
    · simp [h0, h1, hset, LRUReplacer.Insert, hnotin]
      intro ha hb
      exfalso
      omega
    · simp [h0, h1, hset]
      intro ha hb
      exfalso
      omega

/-- Witness for C3 as amended: unpinning the pinned dirty resident page
(whose frame sits outside the empty replacer) marks the frame with the
requested flag, succeeds, and appends the frame to the replacer. -/
theorem unpin_page_spec_witness :
    ((BufferPoolManager.UnpinPage 0 true bpmPinnedDirty).2.pages.getD 0
        default).is_dirty = true ∧
    (BufferPoolManager.UnpinPage 0 true bpmPinnedDirty).1 = true ∧
    (BufferPoolManager.UnpinPage 0 true bpmPinnedDirty).2.replacer.lruList =
      bpmPinnedDirty.replacer.lruList ++ [0] := by
  have h := unpin_page_spec bpmPinnedDirty 0 true 0 (by decide) (by decide)
    (by decide)
  exact ⟨h.1, (h.2 (by decide)).1, ((h.2 (by decide)).2.2.1 (by decide))⟩

/-- C5 fails as stated: deleting a resident unpinned page returns true
but leaves the frame inside the replacer and keeps its stored page id,
where the claim requires the frame to leave the LRU set and the id to be
reset to the sentinel. -/
theorem delete_page_counterexample :
    ExtendibleHash.Find hashInt 0 bpmUnpinnedResident.pageTable = some 0 ∧
    (bpmUnpinnedResident.pages.getD 0 default).pin_count = 0 ∧
    (BufferPoolManager.DeletePage 0 bpmUnpinnedResident).1 = true ∧
    ¬ ((BufferPoolManager.DeletePage 0
          bpmUnpinnedResident).2.1.replacer.lruList = [] ∧
       ((BufferPoolManager.DeletePage 0
          bpmUnpinnedResident).2.1.pages.getD 0 default).page_id =
         INVALID_PAGE_ID) := by
  decide

/-- C5 as amended: deleting a resident unpinned page removes the id from
the page table, clears the frame's dirty flag, zeroes its buffer, pushes
the frame onto the free list, deallocates the id on disk and returns
true — but it leaves the replacer untouched (the frame stays in the LRU
set) and does not reset the frame's stored page id. -/
theorem delete_unpinned_spec (b : BufferPoolManager) (pid : Int) (f : Nat)
    (hfind : ExtendibleHash.Find hashInt pid b.pageTable = some f)
    (hwf : b.pageTable.WF)
    (hlt : f < b.pages.length)
    (hpin : (b.pages.getD f default).pin_count ≤ 0) :
    (BufferPoolManager.DeletePage pid b).1 = true ∧
    ExtendibleHash.Find hashInt pid
      (BufferPoolManager.DeletePage pid b).2.1.pageTable = none ∧
    ((BufferPoolManager.DeletePage pid b).2.1.pages.getD f
        default).is_dirty = false ∧
    ((BufferPoolManager.DeletePage pid b).2.1.pages.getD f default).data
      = 0 ∧
    (BufferPoolManager.DeletePage pid b).2.1.freeList =
      b.freeList ++ [f] ∧
    (BufferPoolManager.DeletePage pid b).2.2 = [DiskOp.dealloc pid] ∧
    (BufferPoolManager.DeletePage pid b).2.1.replacer = b.replacer ∧
    ((BufferPoolManager.DeletePage pid b).2.1.pages.getD f
        default).page_id = (b.pages.getD f default).page_id := by
  have hset : ∀ p : Page, (b.pages.set f p).getD f default = p := by
    intro p
    rw [List.getD_eq_getElem _ _ (by simpa using hlt)]
    simp
  have hnot : ¬ ((b.pages.getD f default).pin_count > 0) := by omega
  unfold BufferPoolManager.DeletePage
  simp only [hfind]
  simp only [List.getD_eq_getElem?_getD] at hset hnot ⊢
  simp [hnot, hset, DiskManager.DeallocatePage,
    find_remove_self hashInt pid b.pageTable hwf]

/-- Witness for C5 as amended: deleting the unpinned resident dirty page
succeeds and emits exactly the disk deallocation. -/
theorem delete_unpinned_spec_witness :
    (BufferPoolManager.DeletePage 0 bpmUnpinnedResident).1 = true ∧
    (BufferPoolManager.DeletePage 0 bpmUnpinnedResident).2.2 =
      [DiskOp.dealloc 0] := by
  have h := delete_unpinned_spec bpmUnpinnedResident 0 0
    (by decide) (by decide) (by decide) (by decide)
  exact ⟨h.1, h.2.2.2.2.2.1⟩

/-- C6: deleting a resident page whose pin count is positive returns
false, performs no disk call (in particular no deallocation) and leaves
the whole pool state — page table, free list, replacer, every frame —
exactly as it was. -/
theorem delete_pinned_rejected (b : BufferPoolManager) (pid : Int)
    (f : Nat)
    (hfind : ExtendibleHash.Find hashInt pid b.pageTable = some f)
    (hpin : 0 < (b.pages.getD f default).pin_count) :
    BufferPoolManager.DeletePage pid b = (false, b, []) := by
  unfold BufferPoolManager.DeletePage
  simp only [hfind]
  simp only [List.getD_eq_getElem?_getD] at hpin
  simp [hpin]

/-- Witness for C6: deleting the pinned resident page is rejected with
the state returned unchanged. -/
theorem delete_pinned_rejected_witness :
    BufferPoolManager.DeletePage 0 bpmPinnedDirty =
      (false, bpmPinnedDirty, []) :=
  delete_pinned_rejected bpmPinnedDirty 0 0 (by decide) (by decide)

/-- C7: `FlushPage(id)` returns false exactly when `id` is the sentinel
or not resident; on success it performs exactly the disk write of the
resident frame's buffer under `id`, changes nothing in the pool state but
the disk contents (in particular the dirty flag survives), and a second
flush with no intervening modification returns the very same state, so
flushing twice equals flushing once. -/
theorem flush_page_spec (b : BufferPoolManager) (pid : Int) :
    ((BufferPoolManager.FlushPage pid b).1 = false ↔
      pid = INVALID_PAGE_ID ∨
        ExtendibleHash.Find hashInt pid b.pageTable = none) ∧
    (∀ f, ExtendibleHash.Find hashInt pid b.pageTable = some f →
      pid ≠ INVALID_PAGE_ID →
      BufferPoolManager.FlushPage pid b =
        (true,
         { b with dm := { b.dm with
            disk := mapInsert pid (b.pages.getD f default).data b.dm.disk } },
         [DiskOp.write pid (b.pages.getD f default).data]) ∧
      BufferPoolManager.FlushPage pid
          (BufferPoolManager.FlushPage pid b).2.1 =
        (true, (BufferPoolManager.FlushPage pid b).2.1,
         [DiskOp.write pid (b.pages.getD f default).data])) := by
  constructor
  · by_cases hpid : pid = INVALID_PAGE_ID
    · simp [BufferPoolManager.FlushPage, hpid]
    · cases hf : ExtendibleHash.Find hashInt pid b.pageTable with
      | none => simp [BufferPoolManager.FlushPage, hpid, hf]
      | some f =>
        simp [BufferPoolManager.FlushPage, hpid, hf, DiskManager.WritePage]
  · intro f hfind hpid
    have h1 : BufferPoolManager.FlushPage pid b =
        (true,
         { b with dm := { b.dm with
            disk := mapInsert pid (b.pages.getD f default).data b.dm.disk } },
         [DiskOp.write pid (b.pages.getD f default).data]) := by
      unfold BufferPoolManager.FlushPage
      simp [hpid, hfind, DiskManager.WritePage]
    refine ⟨h1, ?_⟩
    rw [h1]
    unfold BufferPoolManager.FlushPage
    simp [hpid, hfind, DiskManager.WritePage, mapInsert_idem]

/-- Witness for C7: flushing resident page 0 succeeds, flushing absent
page 5 and the sentinel id fail. -/
theorem flush_page_spec_witness :
    (BufferPoolManager.FlushPage 0 bpmPinnedDirty).1 = true ∧
    (BufferPoolManager.FlushPage 5 bpmPinnedDirty).1 = false ∧
    (BufferPoolManager.FlushPage INVALID_PAGE_ID bpmPinnedDirty).1 =
      false := by
  refine ⟨?_, ?_, ?_⟩
  · have h := ((flush_page_spec bpmPinnedDirty 0).2 0 (by decide)
      (by decide)).1
    rw [h]
  · exact (flush_page_spec bpmPinnedDirty 5).1.mpr (Or.inr (by decide))
  · exact (flush_page_spec bpmPinnedDirty INVALID_PAGE_ID).1.mpr
      (Or.inl rfl)

/-! ### The LRU refresh claim -/

/-- C8: the claim demands that over every operation sequence `Victim`
returns the least-recently-inserted element still present, with `Insert`
of an already-present value refreshing it to most-recent.  The code
violates it: the relink branch of `Insert` copies the stale `next` of a
previously refreshed tail, so after Insert(1), Insert(2), Insert(1),
Insert(1) — all defined behaviour — the two victims are 2 and then 2
again (the node holding 1 is left in a self-loop unreachable from the
head), where the claim requires 2 then 1; and Insert of the value that
is currently the cleanly appended most-recent element dereferences the
null `tail->next` (Insert(1), Insert(1) crashes).  The S6 trace itself
is unaffected, since there the refreshed element sits at the head: its
victims are b, c, a. -/
theorem lru_insert_refresh_broken :
    (lruImplInserts [1, 2, 1, 1]).bind (lruImplVictims 2) =
      some [some 2, some 2] ∧
    lruImplInserts [1, 1] = none ∧
    (lruImplInserts [10, 20, 30, 10]).bind (lruImplVictims 3) =
      some [some 20, some 30, some 10] := by
  decide

/-- Witness for C10: the pure-lookup equation evaluated on a concrete
table and key. -/
theorem find_pure_witness :
    ExtendibleHash.FindSt hashNat 0 (insertSeq 1 [0]) =
      (ExtendibleHash.Find hashNat 0 (insertSeq 1 [0]), insertSeq 1 [0]) :=
  find_pure hashNat 0 (insertSeq 1 [0])

end Scudb
